import Mathlib

/-
Verification of `src/iota-client/src/api/address.rs` (iota.rs address API):
hardened BIP32 path construction, per-address derivation, batch generation
over an index range, and reverse search of a bech32 address.

The external collaborators of the module (the seed capability, the compressed
public key, the Blake2b-256 hash and the bech32 text encoding) are kept
abstract, bundled in `CryptoCtx`, exactly as the spec treats them (narrow
interfaces, not reimplemented).  Machine integers use `Nat` with explicit
`% 2 ^ 32` where 32-bit overflow matters.  A Rust call that can panic is
modelled with the `Res` type, which separates ordinary error returns from
panics.
-/

namespace Iota

/-- Hardened-derivation marker bit for BIP32 path segments: `1 << 31`. -/
def HARDENED : Nat := 2 ^ 31

/-- Modulus of the unsigned 32-bit segment type `u32`. -/
def U32 : Nat := 2 ^ 32

/-- The error values of the client crate that this module can surface
(the error enum itself lives outside `src/`; the variants and payloads are
the ones this module constructs or propagates, per the spec's taxonomy). -/
inductive Error where
  | MissingParameter : String → Error
  | InputAddressNotFound : String → Error
  | KeyDerivationFailed : String → Error
  | Connection : String → Error
deriving DecidableEq, Repr

/-- Outcome of a Rust call: an ordinary value, an ordinary error return, or a
panic (`expect` / `unwrap`). -/
inductive Res (α : Type) where
  | ok : α → Res α
  | err : Error → Res α
  | panic : String → Res α
deriving DecidableEq, Repr

/-- An address as in `bee_message`: the `Ed25519` variant wraps the 32-byte
hash of the compressed public key (bytes modelled as a list of `Nat`). -/
inductive Address where
  | Ed25519 : List Nat → Address
deriving DecidableEq, Repr

/-- The prefix-source capability of a connected client: `get_bech32_hrp`,
which may fail with a connection error (modelled by its result value). -/
structure Client where
  get_bech32_hrp : Except Error String

/-- External cryptographic collaborators, abstract as in the spec:
the seed capability `generate_private_key`, the compressed public key of a
private key, the 32-byte Blake2b hash, and the bech32 encoding of an address
under a human-readable part.  `S` is the seed type, `P` the private-key type. -/
structure CryptoCtx (S P : Type) where
  generate_private_key : S → List Nat → Except String P
  compressed_public_key : P → List Nat
  blake2b_32 : List Nat → List Nat
  to_bech32 : Address → String → String

/-- A `Range<usize>`; Rust's `end` field is called `stop` here. -/
structure URange where
  start : Nat
  stop : Nat
deriving DecidableEq, Repr

/-- Debug formatting of a range, as `format!("{:?}", range)` produces. -/
def rangeDebug (r : URange) : String :=
  toString r.start ++ ".." ++ toString r.stop

/-- The `GetAddressesBuilder` struct, with the seed borrowed as a value of the
abstract seed type `S`. -/
structure GetAddressesBuilder (S : Type) where
  client : Option Client
  seed : Option S
  account_index : Nat
  range : URange
  bech32_hrp : Option String

/-- The `Default` instance of the builder. -/
def GetAddressesBuilder.default (S : Type) : GetAddressesBuilder S :=
  { client := none, seed := none, account_index := 0,
    range := ⟨0, 20⟩, bech32_hrp := none }

/-- Constructor `GetAddressesBuilder::new`: default builder with the seed set. -/
def GetAddressesBuilder.new (seed : S) : GetAddressesBuilder S :=
  { GetAddressesBuilder.default S with seed := some seed }

/-- Builder method `with_client`. -/
def GetAddressesBuilder.with_client (b : GetAddressesBuilder S) (c : Client) :
    GetAddressesBuilder S :=
  { b with client := some c }

/-- Builder method `with_account_index`. -/
def GetAddressesBuilder.with_account_index (b : GetAddressesBuilder S)
    (account_index : Nat) : GetAddressesBuilder S :=
  { b with account_index := account_index }

/-- Builder method `with_range`. -/
def GetAddressesBuilder.with_range (b : GetAddressesBuilder S) (r : URange) :
    GetAddressesBuilder S :=
  { b with range := r }

/-- Builder method `with_bech32_hrp`. -/
def GetAddressesBuilder.with_bech32_hrp (b : GetAddressesBuilder S)
    (hrp : String) : GetAddressesBuilder S :=
  { b with bech32_hrp := some hrp }

/-- Modelled from the spec: the `account_path!` template macro and
`BIP32Path::from_str` are not under `src/`.  Per the spec the template holds
the standard purpose, coin-type and account segments, all hardened
(purpose 44 and coin type 4218 for this scheme), and construction fails when
the account index cannot be encoded as a hardened segment, i.e. overflows
the hardened-bit range. -/
def account_path (account_index : Nat) : Except String (List Nat) :=
  if account_index < HARDENED then
    .ok [44 + HARDENED, 4218 + HARDENED, account_index + HARDENED]
  else
    .error "invalid account index"

/-- The first segment `generate_address` pushes: `internal as u32 + HARDENED`. -/
def chain_segment (internal : Bool) : Nat :=
  ((if internal then 1 else 0) + HARDENED) % U32

/-- The second segment `generate_address` pushes: `index as u32 + HARDENED`,
with the `usize → u32` truncating cast and the wrapping addition explicit. -/
def index_segment (index : Nat) : Nat :=
  (index % U32 + HARDENED) % U32

/-- The `generate_address` function: push the chain-type segment and the
index segment, derive the private key from the seed, hash its compressed
public key, pop the two segments, and return the Ed25519 address.  The
mutable `BIP32Path` is threaded explicitly: the result pairs the returned
`Result<Address>` with the path as the call leaves it.  The early `?` return
on a failed key derivation leaves the two pushed segments on the path. -/
def generate_address (ctx : CryptoCtx S P) (seed : S) (path : List Nat)
    (index : Nat) (internal : Bool) : Except Error Address × List Nat :=
  let path1 := path ++ [chain_segment internal]
  let path2 := path1 ++ [index_segment index]
  match ctx.generate_private_key seed path2 with
  | .error e => (.error (.KeyDerivationFailed e), path2)
  | .ok sk =>
      let public_key := ctx.compressed_public_key sk
      let result := ctx.blake2b_32 public_key
      (.ok (Address.Ed25519 result), path2.dropLast.dropLast)

/-- The `for i in self.range` loop body of `get_all`, with the path, the
loop counter and the accumulated address list threaded explicitly.
`count` is the number of remaining iterations, `start` the current index.
`self.seed.unwrap()` panics when the builder holds no seed. -/
def get_all_loop (ctx : CryptoCtx S P) (seed : Option S) (hrp : String)
    (path : List Nat) (start count : Nat) (acc : List (String × Bool)) :
    Res (List (String × Bool)) :=
  match count with
  | 0 => .ok acc
  | c + 1 =>
      match seed with
      | none => .panic "called `Option::unwrap()` on a `None` value"
      | some s =>
          match generate_address ctx s path start false with
          | (.error e, _) => .err e
          | (.ok address, path2) =>
              match generate_address ctx s path2 start true with
              | (.error e, _) => .err e
              | (.ok internal_address, path3) =>
                  get_all_loop ctx seed hrp path3 (start + 1) c
                    (acc ++ [(ctx.to_bech32 address hrp, false),
                             (ctx.to_bech32 internal_address hrp, true)])

/-- Method `GetAddressesBuilder::get_all`: build the account path (panicking via
`expect` when the account index is invalid), resolve the bech32 hrp (an
explicit hrp wins; otherwise the client capability is required, else
`Error::MissingParameter("Client or bech32_hrp")`), then derive External and
Internal addresses for each index of the range. -/
def get_all (ctx : CryptoCtx S P) (b : GetAddressesBuilder S) :
    Res (List (String × Bool)) :=
  match account_path b.account_index with
  | .error msg => .panic msg
  | .ok path =>
      match (match b.bech32_hrp with
             | some h => Res.ok h
             | none =>
                 match b.client with
                 | none => Res.err (.MissingParameter "Client or bech32_hrp")
                 | some c =>
                     match c.get_bech32_hrp with
                     | .ok h => Res.ok h
                     | .error e => Res.err e) with
      | .ok hrp =>
          get_all_loop ctx b.seed hrp path b.range.start
            (b.range.stop - b.range.start) []
      | .err e => .err e
      | .panic m => .panic m

/-- Method `GetAddressesBuilder::finish`: `get_all`, keep the non-internal entries,
drop the chain-type tags. -/
def finish (ctx : CryptoCtx S P) (b : GetAddressesBuilder S) :
    Res (List String) :=
  match get_all ctx b with
  | .ok addresses => .ok ((addresses.filter (fun p => !p.2)).map Prod.fst)
  | .err e => .err e
  | .panic m => .panic m

/-- The scan loop of `search_address`: compare each generated entry with the
target; on a match return the counter and the entry's internal flag; advance
the counter only past non-internal entries; when the list is exhausted fail
with `InputAddressNotFound` carrying the debug-formatted range. -/
def search_loop (addresses : List (String × Bool)) (address : String)
    (index_counter : Nat) (r : URange) : Except Error (Nat × Bool) :=
  match addresses with
  | [] => .error (.InputAddressNotFound (rangeDebug r))
  | address_internal :: rest =>
      if address_internal.1 = address then
        .ok (index_counter, address_internal.2)
      else if address_internal.2 then
        search_loop rest address index_counter r
      else
        search_loop rest address (index_counter + 1) r

/-- Function `search_address`: regenerate the range with a builder holding the seed,
hrp, account index and range, then scan the output in generation order. -/
def search_address (ctx : CryptoCtx S P) (seed : S) (bech32_hrp : String)
    (account_index : Nat) (r : URange) (address : String) :
    Res (Nat × Bool) :=
  match get_all ctx
      ((((GetAddressesBuilder.new seed).with_bech32_hrp
          bech32_hrp).with_account_index account_index).with_range r) with
  | .err e => .err e
  | .panic m => .panic m
  | .ok addresses =>
      match search_loop addresses address 0 r with
      | .ok v => .ok v
      | .error e => .err e

deriving instance DecidableEq for Except

/-! Concrete instantiations used by witnesses and counterexamples. -/

/-- A concrete crypto context with an injective seed capability (the private
key records the exact path it was derived from) and a transparent encoding. -/
def testCtx : CryptoCtx Nat (List Nat) where
  generate_private_key := fun s path => .ok (s :: path)
  compressed_public_key := fun k => k
  blake2b_32 := fun k => k
  to_bech32 := fun a hrp =>
    match a with
    | .Ed25519 bs => hrp ++ toString bs

/-- A crypto context whose seed rejects every path. -/
def failCtx : CryptoCtx Unit Unit where
  generate_private_key := fun _ _ => .error "rejected"
  compressed_public_key := fun _ => []
  blake2b_32 := fun k => k
  to_bech32 := fun _ hrp => hrp

/-- A builder with seed `0`, hrp `"io"` and range `0..2`. -/
def bEx : GetAddressesBuilder Nat :=
  ((GetAddressesBuilder.new 0).with_bech32_hrp "io").with_range ⟨0, 2⟩

/-- The output of `get_all testCtx bEx`. -/
def lEx : List (String × Bool) :=
  [("io[0, 2147483692, 2147487866, 2147483648, 2147483648, 2147483648]", false),
   ("io[0, 2147483692, 2147487866, 2147483648, 2147483649, 2147483648]", true),
   ("io[0, 2147483692, 2147487866, 2147483648, 2147483648, 2147483649]", false),
   ("io[0, 2147483692, 2147487866, 2147483648, 2147483649, 2147483649]", true)]

/-- A builder whose account index overflows the hardened-bit range. -/
def bOverflow : GetAddressesBuilder Nat :=
  ((GetAddressesBuilder.new 0).with_bech32_hrp "io").with_account_index
    2147483648

/-- A builder built from `Default` (seed never set) with an explicit hrp and a
non-empty range. -/
def bNoSeed : GetAddressesBuilder Nat :=
  ((GetAddressesBuilder.default Nat).with_bech32_hrp "io").with_range ⟨0, 1⟩

/-! Helper lemmas. -/

/-- Canonical unfolding of `generate_address`: the two pushes amount to
appending the chain-type and index segments, and the two pops on the success
path restore the incoming path. -/
theorem generate_address_eq (ctx : CryptoCtx S P) (s : S) (path : List Nat)
    (i : Nat) (b : Bool) :
    generate_address ctx s path i b =
      match ctx.generate_private_key s
          (path ++ [chain_segment b, index_segment i]) with
      | .error e =>
          (.error (.KeyDerivationFailed e),
           path ++ [chain_segment b, index_segment i])
      | .ok sk =>
          (.ok (Address.Ed25519 (ctx.blake2b_32 (ctx.compressed_public_key sk))),
           path) := by
  simp only [generate_address]
  cases hk : ctx.generate_private_key s
      (path ++ [chain_segment b] ++ [index_segment i]) with
  | error e => simp [List.append_assoc] at hk ⊢; rw [hk]
  | ok sk => simp [List.append_assoc] at hk ⊢; rw [hk]

/-- A successful `generate_address` call pops exactly the two segments it
pushed: the path it leaves equals the path it received. -/
theorem generate_address_path_of_ok (ctx : CryptoCtx S P) (s : S)
    (path : List Nat) (i : Nat) (b : Bool) (a : Address)
    (h : (generate_address ctx s path i b).1 = .ok a) :
    (generate_address ctx s path i b).2 = path := by
  rw [generate_address_eq] at h ⊢
  cases hk : ctx.generate_private_key s
      (path ++ [chain_segment b, index_segment i]) with
  | error e => rw [hk] at h; simp at h
  | ok sk => simp

/-- A failed `generate_address` call leaves the two pushed segments on the
path: the early `?` return skips both pops. -/
theorem generate_address_path_of_error (ctx : CryptoCtx S P) (s : S)
    (path : List Nat) (i : Nat) (b : Bool) (e : Error)
    (h : (generate_address ctx s path i b).1 = .error e) :
    (generate_address ctx s path i b).2 =
      path ++ [chain_segment b, index_segment i] := by
  rw [generate_address_eq] at h ⊢
  cases hk : ctx.generate_private_key s
      (path ++ [chain_segment b, index_segment i]) with
  | error e2 => simp
  | ok sk => rw [hk] at h; simp at h

/-- Reference recursion for the generation loop: because a successful
`generate_address` restores the path, every iteration starts from the same
template path, so the loop is equivalent to this recursion in which the path
never changes. -/
def gen_from (ctx : CryptoCtx S P) (s : S) (hrp : String) (path : List Nat) :
    Nat → Nat → Res (List (String × Bool))
  | _, 0 => .ok []
  | start, c + 1 =>
      match generate_address ctx s path start false with
      | (.error e, _) => .err e
      | (.ok address, _) =>
          match generate_address ctx s path start true with
          | (.error e, _) => .err e
          | (.ok internal_address, _) =>
              match gen_from ctx s hrp path (start + 1) c with
              | .ok rest =>
                  .ok ((ctx.to_bech32 address hrp, false) ::
                       (ctx.to_bech32 internal_address hrp, true) :: rest)
              | .err e => .err e
              | .panic m => .panic m

/-- The generation loop with a present seed agrees with `gen_from`, modulo
the accumulator. -/
theorem get_all_loop_eq_gen_from (ctx : CryptoCtx S P) (s : S) (hrp : String)
    (path : List Nat) :
    ∀ (count start : Nat) (acc : List (String × Bool)),
    get_all_loop ctx (some s) hrp path start count acc =
      match gen_from ctx s hrp path start count with
      | .ok l => .ok (acc ++ l)
      | .err e => .err e
      | .panic m => .panic m := by
  intro count
  induction count with
  | zero => intro start acc; simp [get_all_loop, gen_from]
  | succ c ih =>
      intro start acc
      rcases h1 : generate_address ctx s path start false with ⟨r1, p1⟩
      cases r1 with
      | error e => simp [get_all_loop, gen_from, h1]
      | ok a =>
          have hp1 : p1 = path := by
            have hh := generate_address_path_of_ok ctx s path start false a
              (by rw [h1])
            rw [h1] at hh; exact hh
          have h1' : generate_address ctx s path start false =
              (Except.ok a, path) := by rw [h1, hp1]
          rcases h2 : generate_address ctx s path start true with ⟨r2, p2⟩
          cases r2 with
          | error e => simp [get_all_loop, gen_from, h1', h2]
          | ok a2 =>
              have hp2 : p2 = path := by
                have hh := generate_address_path_of_ok ctx s path start true a2
                  (by rw [h2])
                rw [h2] at hh; exact hh
              have h2' : generate_address ctx s path start true =
                  (Except.ok a2, path) := by rw [h2, hp2]
              simp only [get_all_loop, gen_from, h1', h2']
              rw [ih (start + 1)
                (acc ++ [(ctx.to_bech32 a hrp, false),
                         (ctx.to_bech32 a2 hrp, true)])]
              cases hg : gen_from ctx s hrp path (start + 1) c <;> simp

/-- Characterization of a successful `gen_from` run: the output has `2 count`
entries and, per position `j`, holds the External address of `start + j`
followed by the Internal one, all derived from the unchanged template path. -/
theorem gen_from_ok (ctx : CryptoCtx S P) (s : S) (hrp : String)
    (path : List Nat) :
    ∀ (count start : Nat) (l : List (String × Bool)),
    gen_from ctx s hrp path start count = .ok l →
    l.length = 2 * count ∧
    ∀ j, j < count →
      ∃ a aInt,
        (generate_address ctx s path (start + j) false).1 = .ok a ∧
        (generate_address ctx s path (start + j) true).1 = .ok aInt ∧
        l[2 * j]? = some (ctx.to_bech32 a hrp, false) ∧
        l[2 * j + 1]? = some (ctx.to_bech32 aInt hrp, true) := by
  intro count
  induction count with
  | zero =>
      intro start l h
      simp only [gen_from] at h
      cases h
      simp
  | succ c ih =>
      intro start l h
      simp only [gen_from] at h
      rcases h1 : generate_address ctx s path start false with ⟨r1, p1⟩
      rw [h1] at h
      cases r1 with
      | error e => simp at h
      | ok a =>
          rcases h2 : generate_address ctx s path start true with ⟨r2, p2⟩
          rw [h2] at h
          cases r2 with
          | error e => simp at h
          | ok a2 =>
              cases hg : gen_from ctx s hrp path (start + 1) c with
              | err e => rw [hg] at h; simp at h
              | panic m => rw [hg] at h; simp at h
              | ok rest =>
                  rw [hg] at h
                  simp only [Res.ok.injEq] at h
                  subst h
                  obtain ⟨ihlen, ihel⟩ := ih (start + 1) rest hg
                  constructor
                  · simp only [List.length_cons, ihlen]; omega
                  · intro j hj
                    cases j with
                    | zero =>
                        refine ⟨a, a2, ?_, ?_, ?_, ?_⟩
                        · rw [Nat.add_zero, h1]
                        · rw [Nat.add_zero, h2]
                        · simp
                        · simp
                    | succ j2 =>
                        obtain ⟨a3, a4, ha, hb, hc, hd⟩ :=
                          ihel j2 (by omega)
                        refine ⟨a3, a4, ?_, ?_, ?_, ?_⟩
                        · rw [show start + (j2 + 1) = start + 1 + j2 by omega]
                          exact ha
                        · rw [show start + (j2 + 1) = start + 1 + j2 by omega]
                          exact hb
                        · rw [show 2 * (j2 + 1) = 2 * j2 + 1 + 1 by ring]
                          simp only [List.getElem?_cons_succ]
                          exact hc
                        · rw [show 2 * (j2 + 1) + 1 = 2 * j2 + 1 + 1 + 1 by
                            ring]
                          simp only [List.getElem?_cons_succ]
                          exact hd

/-- When the target occurs at position `k` and nowhere earlier, the scan
returns the initial counter plus the number of non-internal entries strictly
before `k`, paired with the matching entry's internal flag. -/
theorem search_loop_found (address : String) (r : URange) :
    ∀ (l : List (String × Bool)) (k c : Nat) (ct : Bool),
    l[k]? = some (address, ct) →
    (∀ j, j < k → ∀ p, l[j]? = some p → p.1 ≠ address) →
    search_loop l address c r =
      .ok (c + (l.take k).countP (fun p => !p.2), ct) := by
  intro l
  induction l with
  | nil => intro k c ct h _; simp at h
  | cons hd tl ih =>
      intro k c ct h hpre
      cases k with
      | zero =>
          simp only [List.getElem?_cons_zero, Option.some.injEq] at h
          subst h
          simp [search_loop]
      | succ k2 =>
          have hhd : hd.1 ≠ address :=
            hpre 0 (Nat.succ_pos k2) hd (by simp)
          have h' : tl[k2]? = some (address, ct) := by simpa using h
          have hpre' : ∀ j, j < k2 → ∀ p, tl[j]? = some p →
              p.1 ≠ address := by
            intro j hj p hp
            exact hpre (j + 1) (by omega) p (by simpa using hp)
          cases hb : hd.2 with
          | true =>
              rw [search_loop, if_neg hhd, hb]
              simp only [if_true]
              rw [ih k2 c ct h' hpre']
              simp [List.take_succ_cons, List.countP_cons, hb]
          | false =>
              rw [search_loop, if_neg hhd, hb]
              simp only [Bool.false_eq_true, if_false]
              rw [ih k2 (c + 1) ct h' hpre']
              simp [List.take_succ_cons, List.countP_cons, hb]
              omega

/-- When the target occurs nowhere in the list, the scan fails with
`InputAddressNotFound` carrying the debug-formatted range. -/
theorem search_loop_not_found (address : String) (r : URange) :
    ∀ (l : List (String × Bool)) (c : Nat),
    (∀ p ∈ l, p.1 ≠ address) →
    search_loop l address c r =
      .error (.InputAddressNotFound (rangeDebug r)) := by
  intro l
  induction l with
  | nil => intro c _; simp [search_loop]
  | cons hd tl ih =>
      intro c h
      have hhd : hd.1 ≠ address := h hd (List.mem_cons_self hd tl)
      have htl : ∀ p ∈ tl, p.1 ≠ address := fun p hp =>
        h p (List.mem_cons_of_mem hd hp)
      cases hb : hd.2 with
      | true =>
          rw [search_loop, if_neg hhd, hb]
          simp only [if_true]
          exact ih c htl
      | false =>
          rw [search_loop, if_neg hhd, hb]
          simp only [Bool.false_eq_true, if_false]
          exact ih (c + 1) htl

/-! Claims. -/

/-- Claim C1: for every seed, account index, prefix and range
`[start, stop)`, `get_all` returns a list of exactly `2 * (stop - start)`
entries in the exact order: for each index `i` ascending, first the External
address of `i` paired with chain-type External (`false`), then the Internal
address of `i` paired with chain-type Internal (`true`). -/
theorem claim_C1_generate_all_order (ctx : CryptoCtx S P)
    (b : GetAddressesBuilder S) (s : S) (hrp : String) (path0 : List Nat)
    (l : List (String × Bool))
    (hseed : b.seed = some s) (hhrp : b.bech32_hrp = some hrp)
    (hpath : account_path b.account_index = .ok path0)
    (h : get_all ctx b = .ok l) :
    l.length = 2 * (b.range.stop - b.range.start) ∧
    ∀ j, j < b.range.stop - b.range.start →
      ∃ a aInt,
        (generate_address ctx s path0 (b.range.start + j) false).1 = .ok a ∧
        (generate_address ctx s path0 (b.range.start + j) true).1 = .ok aInt ∧
        l[2 * j]? = some (ctx.to_bech32 a hrp, false) ∧
        l[2 * j + 1]? = some (ctx.to_bech32 aInt hrp, true) := by
  simp only [get_all, hpath, hhrp, hseed] at h
  rw [get_all_loop_eq_gen_from] at h
  cases hg : gen_from ctx s hrp path0 b.range.start
      (b.range.stop - b.range.start) with
  | err e => rw [hg] at h; simp at h
  | panic m => rw [hg] at h; simp at h
  | ok l2 =>
      rw [hg] at h
      simp only [List.nil_append, Res.ok.injEq] at h
      rw [← h]
      exact gen_from_ok ctx s hrp path0 (b.range.stop - b.range.start)
        b.range.start l2 hg

/-- Witness for C1 at a concrete seed, prefix and range `0..2`. -/
theorem claim_C1_witness :
    bEx.seed = some 0 ∧ bEx.bech32_hrp = some "io" ∧
    account_path bEx.account_index =
      .ok [2147483692, 2147487866, 2147483648] ∧
    get_all testCtx bEx = .ok lEx ∧
    (lEx.length = 2 * (bEx.range.stop - bEx.range.start) ∧
     ∀ j, j < bEx.range.stop - bEx.range.start →
       ∃ a aInt,
         (generate_address testCtx 0 [2147483692, 2147487866, 2147483648]
           (bEx.range.start + j) false).1 = .ok a ∧
         (generate_address testCtx 0 [2147483692, 2147487866, 2147483648]
           (bEx.range.start + j) true).1 = .ok aInt ∧
         lEx[2 * j]? = some (testCtx.to_bech32 a "io", false) ∧
         lEx[2 * j + 1]? = some (testCtx.to_bech32 aInt "io", true)) :=
  ⟨rfl, rfl, by decide, by decide,
   claim_C1_generate_all_order testCtx bEx 0 "io"
     [2147483692, 2147487866, 2147483648] lEx rfl rfl (by decide)
     (by decide)⟩

/-- Claim C2: searching for a target that occurs in the output of `get_all`
over the same seed, prefix, account index and range returns `Ok` with the
External-address count at the first match position and the chain type of the
match; searching for a target that occurs nowhere in that output fails with
`InputAddressNotFound` carrying the debug-formatted range. -/
theorem claim_C2_search_correct (ctx : CryptoCtx S P) (s : S) (hrp : String)
    (ai : Nat) (r : URange) (target : String) (l : List (String × Bool))
    (h : get_all ctx
        ((((GetAddressesBuilder.new s).with_bech32_hrp
            hrp).with_account_index ai).with_range r) = .ok l) :
    ((∀ p ∈ l, p.1 ≠ target) →
      search_address ctx s hrp ai r target =
        .err (.InputAddressNotFound (rangeDebug r))) ∧
    (∀ k ct, l[k]? = some (target, ct) →
      (∀ j, j < k → l[j]?.map Prod.fst ≠ some target) →
      search_address ctx s hrp ai r target =
        .ok ((l.take k).countP (fun p => !p.2), ct)) := by
  constructor
  · intro hnone
    simp only [search_address, h]
    rw [search_loop_not_found target r l 0 hnone]
  · intro k ct hk hpre
    have hpre' : ∀ j, j < k → ∀ p, l[j]? = some p → p.1 ≠ target := by
      intro j hj p hp hcontra
      exact hpre j hj (by rw [hp]; simp [hcontra])
    simp only [search_address, h]
    rw [search_loop_found target r l k 0 ct hk hpre']
    simp

/-- Witness for C2 at a concrete range `0..2`: the first External address is
found at count `0`, and a string outside the output set is not found. -/
theorem claim_C2_witness :
    search_address testCtx 0 "io" 0 ⟨0, 2⟩
      "io[0, 2147483692, 2147487866, 2147483648, 2147483648, 2147483648]" =
      .ok (0, false) ∧
    search_address testCtx 0 "io" 0 ⟨0, 2⟩ "nope" =
      .err (.InputAddressNotFound "0..2") := by
  constructor
  · have h2 := (claim_C2_search_correct testCtx 0 "io" 0 ⟨0, 2⟩
      "io[0, 2147483692, 2147487866, 2147483648, 2147483648, 2147483648]"
      lEx (by decide)).2 0 false (by decide) (by decide)
    simpa using h2
  · exact (claim_C2_search_correct testCtx 0 "io" 0 ⟨0, 2⟩ "nope" lEx
      (by decide)).1 (by decide)

/-- Claim C3: the scan counter of `search_address` is incremented only when a
non-internal (External) entry is passed without matching; an Internal entry
never increments it; hence the value returned with a match equals the number
of External entries preceding the match in generation order, offset by the
initial counter value. -/
theorem claim_C3_external_count (l : List (String × Bool)) (target : String)
    (c : Nat) (r : URange) (k : Nat) (ct : Bool)
    (hk : l[k]? = some (target, ct))
    (hpre : ∀ j, j < k → l[j]?.map Prod.fst ≠ some target) :
    search_loop l target c r =
      .ok (c + (l.take k).countP (fun p => !p.2), ct) := by
  have hpre' : ∀ j, j < k → ∀ p, l[j]? = some p → p.1 ≠ target := by
    intro j hj p hp hcontra
    exact hpre j hj (by rw [hp]; simp [hcontra])
  exact search_loop_found target r l k c ct hk hpre'

/-- Witness for C3: the spec scenario with range `0..2`: the generated list
has four entries, and scanning for entry 2 (the second External address)
returns counter `1` with chain type External. -/
theorem claim_C3_witness :
    search_loop lEx
      "io[0, 2147483692, 2147487866, 2147483648, 2147483648, 2147483649]" 0
      ⟨0, 2⟩ = .ok (1, false) := by
  have h := claim_C3_external_count lEx
    "io[0, 2147483692, 2147487866, 2147483648, 2147483648, 2147483649]" 0
    ⟨0, 2⟩ 2 false (by decide) (by decide)
  simpa using h

/-- Claim C8: `finish` equals `get_all` on the same builder state filtered to
the non-internal (External) entries with the chain-type tags dropped, their
relative order preserved (filtering preserves list order). -/
theorem claim_C8_finish_external_only (ctx : CryptoCtx S P)
    (b : GetAddressesBuilder S) (l : List (String × Bool))
    (h : get_all ctx b = .ok l) :
    finish ctx b = .ok ((l.filter (fun p => !p.2)).map Prod.fst) := by
  simp only [finish, h]

/-- Witness for C8 at range `0..2`: only the two External addresses remain. -/
theorem claim_C8_witness :
    get_all testCtx bEx = .ok lEx ∧
    finish testCtx bEx =
      .ok ((lEx.filter (fun p => !p.2)).map Prod.fst) :=
  ⟨by decide, claim_C8_finish_external_only testCtx bEx lEx (by decide)⟩

/-- Counterexample to C4 as stated: with a seed that rejects the path, the
per-address derivation returns an error and the path is NOT restored — the
two pushed segments are still there (the early `?` return skips both pops). -/
theorem claim_C4_counterexample :
    (generate_address failCtx () [] 0 false).2 ≠ [] := by decide

/-- Claim C4 (amended): after every call to `generate_address` that returns
`Ok`, the two pushed segments (chain type, address index) are removed and the
path is restored to its pre-call state; a call that returns an error leaves
the two pushed segments on the path. -/
theorem claim_C4_path_balance (ctx : CryptoCtx S P) (s : S) (path : List Nat)
    (i : Nat) (b : Bool) :
    (∀ a, (generate_address ctx s path i b).1 = .ok a →
      (generate_address ctx s path i b).2 = path) ∧
    (∀ e, (generate_address ctx s path i b).1 = .error e →
      (generate_address ctx s path i b).2 =
        path ++ [chain_segment b, index_segment i]) :=
  ⟨fun a h => generate_address_path_of_ok ctx s path i b a h,
   fun e h => generate_address_path_of_error ctx s path i b e h⟩

/-- Witness for C4 (amended): a successful call restores the empty path; a
failed call leaves exactly the two pushed segments. -/
theorem claim_C4_witness :
    (generate_address testCtx 0 [] 0 false).2 = [] ∧
    (generate_address failCtx () [] 0 false).2 =
      [] ++ [chain_segment false, index_segment 0] :=
  ⟨(claim_C4_path_balance testCtx 0 [] 0 false).1
      (Address.Ed25519 [0, 2147483648, 2147483648]) (by decide),
   (claim_C4_path_balance failCtx () [] 0 false).2
      (Error.KeyDerivationFailed "rejected") (by decide)⟩

/-- Counterexample to C5 as stated: for an account index that cannot be
encoded as a hardened segment, `get_all` does not return an ordinary error
value — it panics (the source calls `.expect("invalid account index")` on the
path construction). -/
theorem claim_C5_counterexample :
    get_all testCtx bOverflow = Res.panic "invalid account index" ∧
    ∀ e : Error, get_all testCtx bOverflow ≠ Res.err e := by
  refine ⟨by decide, fun e h => ?_⟩
  rw [show get_all testCtx bOverflow = Res.panic "invalid account index"
    by decide] at h
  exact Res.noConfusion h

/-- Claim C5 (amended): for every account index that cannot be represented as
a hardened path segment, `get_all` panics with message
`"invalid account index"` (a crash, not an error value surfaced to the
caller). -/
theorem claim_C5_invalid_account_index (ctx : CryptoCtx S P)
    (b : GetAddressesBuilder S) (h : HARDENED ≤ b.account_index) :
    get_all ctx b = .panic "invalid account index" := by
  have hn : ¬ b.account_index < HARDENED := Nat.not_lt.mpr h
  simp [get_all, account_path, hn]

/-- Witness for C5 (amended) at account index `2 ^ 31`. -/
theorem claim_C5_witness :
    HARDENED ≤ bOverflow.account_index ∧
    get_all testCtx bOverflow = Res.panic "invalid account index" :=
  ⟨by decide, claim_C5_invalid_account_index testCtx bOverflow (by decide)⟩

/-- Claim C6: with no explicit prefix and no client, `get_all` fails with
`MissingParameter "Client or bech32_hrp"` for any range.  The result is the
same for every crypto context (in particular for every seed-derivation
function) and every seed field, so no call to the seed's private-key
derivation can influence it — the check happens before any derivation work. -/
theorem claim_C6_missing_prefix_source (ctx : CryptoCtx S P)
    (b : GetAddressesBuilder S)
    (hhrp : b.bech32_hrp = none) (hclient : b.client = none)
    (hacct : b.account_index < HARDENED) :
    get_all ctx b = .err (.MissingParameter "Client or bech32_hrp") := by
  simp [get_all, account_path, hhrp, hclient, hacct]

/-- Witness for C6: the default builder (no prefix, no client). -/
theorem claim_C6_witness :
    (GetAddressesBuilder.default Nat).bech32_hrp = none ∧
    (GetAddressesBuilder.default Nat).client = none ∧
    (GetAddressesBuilder.default Nat).account_index < HARDENED ∧
    get_all testCtx (GetAddressesBuilder.default Nat) =
      .err (.MissingParameter "Client or bech32_hrp") :=
  ⟨rfl, rfl, by decide,
   claim_C6_missing_prefix_source testCtx (GetAddressesBuilder.default Nat)
     rfl rfl (by decide)⟩

/-- Counterexample to C7 as stated: the index segment pushed for address
index `2 ^ 31` is `0` — the wrapping addition `index as u32 + HARDENED`
clears the hardened bit, so not every pushed segment carries it. -/
theorem claim_C7_counterexample :
    index_segment 2147483648 = 0 ∧ index_segment 2147483648 < HARDENED := by
  constructor <;> decide

/-- Claim C7 (amended): the chain-type segment always carries the hardened
bit; the address-index segment carries it whenever the truncated 32-bit value
of the index is below `2 ^ 31` (so that the addition of `HARDENED` does not
wrap). -/
theorem claim_C7_segments_hardened (internal : Bool) (index : Nat)
    (h : index % U32 < HARDENED) :
    HARDENED ≤ chain_segment internal ∧ HARDENED ≤ index_segment index := by
  constructor
  · cases internal <;> decide
  · unfold index_segment U32 HARDENED
    unfold U32 HARDENED at h
    have hlt : index % 2 ^ 32 + 2 ^ 31 < 2 ^ 32 := by
      have h32 : (2 : Nat) ^ 32 = 2 ^ 31 + 2 ^ 31 := by norm_num
      omega
    rw [Nat.mod_eq_of_lt hlt]
    omega

/-- Witness for C7 (amended) at index `5`. -/
theorem claim_C7_witness :
    (5 : Nat) % U32 < HARDENED ∧
    (HARDENED ≤ chain_segment true ∧ HARDENED ≤ index_segment 5) :=
  ⟨by decide, claim_C7_segments_hardened true 5 (by decide)⟩

/-- Claim C9: derivation is deterministic — for a fixed crypto context, seed,
path, address index and chain type, any two invocations of
`generate_address` produce identical results (the model is a pure function
of exactly these inputs, so there is no hidden state to vary). -/
theorem claim_C9_deterministic (ctx : CryptoCtx S P) (s : S)
    (path : List Nat) (index : Nat) (internal : Bool)
    (r1 r2 : Except Error Address × List Nat)
    (h1 : generate_address ctx s path index internal = r1)
    (h2 : generate_address ctx s path index internal = r2) : r1 = r2 :=
  h1.symm.trans h2

/-- Witness for C9: two concrete invocations agree on the concrete result. -/
theorem claim_C9_witness :
    generate_address testCtx 0 [] 0 false =
      (Except.ok (Address.Ed25519 [0, 2147483648, 2147483648]), []) ∧
    ((Except.ok (Address.Ed25519 [0, 2147483648, 2147483648]),
       ([] : List Nat)) : Except Error Address × List Nat) =
      (Except.ok (Address.Ed25519 [0, 2147483648, 2147483648]), []) :=
  ⟨by decide,
   claim_C9_deterministic testCtx 0 [] 0 false
     (Except.ok (Address.Ed25519 [0, 2147483648, 2147483648]), [])
     (Except.ok (Address.Ed25519 [0, 2147483648, 2147483648]), [])
     (by decide) (by decide)⟩

/-- Claim C10: a builder whose seed was never set (e.g. built via `Default`)
panics inside `get_all` when it reaches the derivation loop with a non-empty
range and a resolvable prefix: `self.seed.unwrap()` panics instead of
returning an error value. -/
theorem claim_C10_missing_seed_panics (ctx : CryptoCtx S P)
    (b : GetAddressesBuilder S) (hrp : String)
    (hseed : b.seed = none) (hhrp : b.bech32_hrp = some hrp)
    (hacct : b.account_index < HARDENED)
    (hr : b.range.start < b.range.stop) :
    get_all ctx b = .panic "called `Option::unwrap()` on a `None` value" := by
  simp only [get_all, account_path, if_pos hacct, hhrp, hseed]
  have hc : b.range.stop - b.range.start =
      (b.range.stop - b.range.start - 1) + 1 := by omega
  rw [hc, get_all_loop]

/-- Witness for C10: a builder constructed from `Default` (seed never set)
with an explicit hrp and range `0..1` panics in `get_all`. -/
theorem claim_C10_witness :
    bNoSeed.seed = none ∧ bNoSeed.bech32_hrp = some "io" ∧
    bNoSeed.account_index < HARDENED ∧
    bNoSeed.range.start < bNoSeed.range.stop ∧
    get_all testCtx bNoSeed =
      .panic "called `Option::unwrap()` on a `None` value" :=
  ⟨rfl, rfl, by decide, by decide,
   claim_C10_missing_seed_panics testCtx bNoSeed "io" rfl rfl (by decide)
     (by decide)⟩

end Iota
